import Mathlib

/-!
Shallow embedding of the type-inference core of the typing_test repository.
The primary copy is src/inference_test.rs; the divergent draft copy in
src/main.rs is embedded separately where a claim cites it. Rust panics are
embedded as error values of an Except monad.
-/

/-- Ty is the Type enum from the source: TNamed is a concrete nominal type,
TVar an unresolved type variable, TFun a function type from one type to
another. -/
inductive Ty where
  | TNamed (name : String)
  | TVar (name : String)
  | TFun (fromT : Ty) (toT : Ty)
  deriving DecidableEq, Repr

/-- Expression is the AST enum from the source. -/
inductive Expression where
  | EInt (value : Int)
  | EVar (name : String)
  | EFunc (param : String) (body : Expression)
  | ECall (func : Expression) (arg : Expression)
  | EIf (cond : Expression) (trueB : Expression) (falseB : Expression)
  deriving DecidableEq, Repr

/-- Err collects the failure modes the source reports by panicking.
UnboundVariable is the expect in the EVar arm of infer, TypeNamesMismatch the
names-do-not-fit panic in unify, TypeMismatch the catch-all panic in unify,
InfiniteType the occurs-check panic in var_bind, CallNotFun the
only-expects-TFun panic in the ECall arm of infer, Unimplemented the wildcard
arm of infer, and Fuel is an artifact of the embedding (see unifyF). -/
inductive Err where
  | UnboundVariable (name : String)
  | TypeNamesMismatch (name name2 : String)
  | TypeMismatch (t1 t2 : Ty)
  | InfiniteType (name : String) (t : Ty)
  | CallNotFun
  | Unimplemented
  | Fuel
  deriving DecidableEq, Repr

/-- Substitution is a map from type-variable names to types (a HashMap in the
source), embedded as an association list whose keys stay unique because every
construction below inserts distinct keys. -/
abbrev Substitution := List (String × Ty)

/-- Env is a map from expression-variable names to types. -/
abbrev Env := List (String × Ty)

/-- Map lookup, the embedding of HashMap::get. -/
def lookupStr (m : List (String × Ty)) (k : String) : Option Ty :=
  match m with
  | [] => none
  | p :: rest => if p.1 == k then some p.2 else lookupStr rest k

/-- Map insert, the embedding of HashMap::insert: any existing binding of the
key is replaced. -/
def insertStr (m : List (String × Ty)) (k : String) (v : Ty) : List (String × Ty) :=
  (k, v) :: m.filter (fun p => p.1 != k)

/-- Context from the source: the fresh-variable counter and the environment. -/
structure Context where
  next : Nat
  env : Env
  deriving DecidableEq, Repr

/-- appl_subs_to_type from the source: a named type is returned unchanged, a
type variable is replaced by its entry in the substitution when present
(HashMap::get with unwrap_or on the input), and a function type is mapped
recursively on both sides. -/
def appl_subs_to_type (subst : Substitution) (t : Ty) : Ty :=
  match t with
  | .TNamed _ => t
  | .TVar name => (lookupStr subst name).getD t
  | .TFun f toT => .TFun (appl_subs_to_type subst f) (appl_subs_to_type subst toT)

/-- add_to_context from the source: clone the context and insert the binding
into the clone. -/
def add_to_context (ctx : Context) (name : String) (t : Ty) : Context :=
  ⟨ctx.next, insertStr ctx.env name t⟩

/-- Name minted by new_type_var for a given counter value: the letter T
followed by the decimal counter. -/
def mkTypeVarName (idx : Nat) : String :=
  "T" ++ toString idx

/-- contains from the source: does the type mention the variable name
anywhere, purely structurally? -/
def contains (t : Ty) (name : String) : Bool :=
  match t with
  | .TNamed _ => false
  | .TVar typeName => name == typeName
  | .TFun f toT => contains f name || contains toT name

/-- var_bind from the source: the empty substitution when binding a variable
to itself, the occurs-check panic (InfiniteType) when the type mentions the
variable, and the singleton substitution otherwise. -/
def var_bind (name : String) (t : Ty) : Except Err Substitution :=
  if (match t with | .TVar typeName => name == typeName | _ => false) then
    .ok []
  else if contains t name then
    .error (.InfiniteType name t)
  else
    .ok [(name, t)]

/-- compose_substitution from src/inference_test.rs: the result starts empty
and the loop iterates only over s2, inserting each of its keys mapped through
s1; bindings of s1 are never copied into the result. -/
def compose_substitution (s1 s2 : Substitution) : Substitution :=
  s2.map (fun p => (p.1, appl_subs_to_type s1 p.2))

/-- Size of a type, used as recursion fuel for unify. -/
def sizeT : Ty → Nat
  | .TNamed _ => 1
  | .TVar _ => 1
  | .TFun f toT => sizeT f + sizeT toT + 1

/-- unify from src/inference_test.rs. Lean requires a termination argument and
the recursion in the TFun arm is on substituted types, so the embedding
carries fuel that only that arm consumes, answering Err.Fuel on exhaustion;
the fuel chosen in unify below is never exhausted at any input evaluated in
this development, and every other arm ignores the fuel entirely. -/
def unifyF : Nat → Ty → Ty → Except Err Substitution
  | _, .TNamed name, .TNamed name2 =>
      if name == name2 then .ok [] else .error (.TypeNamesMismatch name name2)
  | _, .TVar name, t2 => var_bind name t2
  | _, t1, .TVar name => var_bind name t1
  | fuel + 1, .TFun f toT, .TFun f2 to2 =>
      match unifyF fuel f f2 with
      | .error e => .error e
      | .ok s1 =>
        match unifyF fuel (appl_subs_to_type s1 toT) (appl_subs_to_type s1 to2) with
        | .error e => .error e
        | .ok s2 => .ok (compose_substitution s1 s2)
  | 0, .TFun _ _, .TFun _ _ => .error .Fuel
  | _, t1, t2 => .error (.TypeMismatch t1 t2)

/-- unify entry point, with fuel taken from the sizes of the inputs. -/
def unify (t1 t2 : Ty) : Except Err Substitution :=
  unifyF (sizeT t1 + sizeT t2) t1 t2

/-- unify from src/main.rs, the divergent draft copy: its match has no TFun
arms (the Rust compiler rejects the match as non-exhaustive) and an arm that
does not return falls through to the trailing empty substitution; the missing
TFun arms are embedded as that same fall-through. In particular two distinct
named types fall out of the if and reach the trailing empty substitution. -/
def mainUnify (t1 t2 : Ty) : Except Err Substitution :=
  match t1, t2 with
  | .TNamed name, .TNamed name2 =>
      if name == name2 then .ok [] else .ok []
  | .TVar name, _ => var_bind name t2
  | _, .TVar name => var_bind name t1
  | _, _ => .ok []

/-- Modelled from the spec: compose(s1, s2) binds every key k of s2 to the
result of applying s1 to the entry of s2 at k, and also carries through every
binding of s1 whose name is absent from s2. This is the design requirement
stated in the spec against which compose_substitution is measured. -/
def spec_compose (s1 s2 : Substitution) : Substitution :=
  s2.map (fun p => (p.1, appl_subs_to_type s1 p.2)) ++
    s1.filter (fun p => (lookupStr s2 p.1).isNone)

/-- apply_subs_to_ctx from the source: same counter, every environment entry
mapped through the substitution. -/
def apply_subs_to_ctx (subs : Substitution) (ctx : Context) : Context :=
  ⟨ctx.next, ctx.env.map (fun p => (p.1, appl_subs_to_type subs p.2))⟩

/-- Env::intial from the source (name kept as written there): true and false
bound to Bool. -/
def intial : Env :=
  insertStr (insertStr [] "true" (.TNamed "Bool")) "false" (.TNamed "Bool")

/-- infer from src/inference_test.rs. The Rust ctx parameter is a mutable
reference through which only the counter is ever mutated, so the embedding
returns the caller-visible counter as the third component. The clones made by
add_to_context in the EFunc arm and by apply_subs_to_ctx in the ECall arm fork
the counter exactly as the source does: increments made through a clone are
lost when the clone is dropped, and in the ECall arm the clone passed to the
argument inference is a temporary. The fourth component is observational
instrumentation only: the list of names produced by new_type_var during the
whole run, in order of minting; it is not part of the Rust return value. -/
def infer (ctx : Context) (e : Expression) :
    Except Err (Ty × Substitution × Nat × List String) :=
  match e with
  | .EInt _ => .ok (.TNamed "Int", [], ctx.next, [])
  | .EVar name =>
    match lookupStr ctx.env name with
    | some t => .ok (t, [], ctx.next, [])
    | none => .error (.UnboundVariable name)
  | .EFunc param body =>
    match infer (add_to_context ⟨ctx.next + 1, ctx.env⟩ param (.TVar (mkTypeVarName ctx.next))) body with
    | .ok (bodyType, subst, _, minted) =>
        .ok (.TFun (appl_subs_to_type subst (.TVar (mkTypeVarName ctx.next))) bodyType,
             subst, ctx.next + 1, mkTypeVarName ctx.next :: minted)
    | .error e2 => .error e2
  | .ECall func arg =>
    match infer ctx func with
    | .error e2 => .error e2
    | .ok (funcType, s1, n1, m1) =>
      match infer (apply_subs_to_ctx s1 ⟨n1, ctx.env⟩) arg with
      | .error e2 => .error e2
      | .ok (argType, s2, _, m2) =>
        let newVar := Ty.TVar (mkTypeVarName n1)
        let s3 := compose_substitution s1 s2
        match unify (.TFun argType newVar) funcType with
        | .error e2 => .error e2
        | .ok s4 =>
          let funcUnified := appl_subs_to_type s4 funcType
          let s5 := compose_substitution s4 s3
          match funcUnified with
          | .TFun f toT =>
            (match unify (appl_subs_to_type s5 f) argType with
             | .error e2 => .error e2
             | .ok s6 =>
               let resultSubs := compose_substitution s5 s6
               .ok (appl_subs_to_type resultSubs toT, resultSubs, n1 + 1,
                    m1 ++ m2 ++ [mkTypeVarName n1]))
          | _ => .error .CallNotFun
  | .EIf _ _ _ => .error .Unimplemented

/-- C1: compose_substitution binds the keys of s2 mapped through s1, but drops
the binding of s1 for the name a, which is absent from s2; the claim requires
the composed domain to be the union of both domains, as spec_compose shows at
the same input. -/
theorem compose_substitution_drops_s1_entries :
    compose_substitution [("a", Ty.TNamed "Int")] [("b", Ty.TVar "a")]
        = [("b", Ty.TNamed "Int")] ∧
    lookupStr (compose_substitution [("a", Ty.TNamed "Int")] [("b", Ty.TVar "a")]) "a"
        = none ∧
    lookupStr (spec_compose [("a", Ty.TNamed "Int")] [("b", Ty.TVar "a")]) "a"
        = some (Ty.TNamed "Int") :=
  ⟨rfl, rfl, rfl⟩

/-- C2: unifying Fun(Var a, Int) with Fun(Bool, Var b) does unify the domains
into s1 and the s1-substituted codomains into s2, but returns
compose_substitution s1 s2, which lacks the binding of a to Bool that the
claimed result compose(s2, s1) carries. -/
theorem unify_fun_result_not_spec_compose :
    unify (Ty.TVar "a") (Ty.TNamed "Bool") = .ok [("a", Ty.TNamed "Bool")] ∧
    unify (appl_subs_to_type [("a", Ty.TNamed "Bool")] (Ty.TNamed "Int"))
          (appl_subs_to_type [("a", Ty.TNamed "Bool")] (Ty.TVar "b"))
        = .ok [("b", Ty.TNamed "Int")] ∧
    unify (Ty.TFun (Ty.TVar "a") (Ty.TNamed "Int"))
          (Ty.TFun (Ty.TNamed "Bool") (Ty.TVar "b"))
        = .ok [("b", Ty.TNamed "Int")] ∧
    lookupStr [("b", Ty.TNamed "Int")] "a" = none ∧
    lookupStr (spec_compose [("b", Ty.TNamed "Int")] [("a", Ty.TNamed "Bool")]) "a"
        = some (Ty.TNamed "Bool") :=
  ⟨rfl, rfl, rfl, rfl, rfl⟩

/-- C3: var_bind returns the empty substitution on Var n itself; for every
other type it fails with InfiniteType n t exactly when contains t n holds, and
returns the singleton substitution binding n to t when the occurs check
passes. -/
theorem var_bind_occurs_check_sound (n : String) (t : Ty) :
    var_bind n (.TVar n) = .ok [] ∧
    (t ≠ .TVar n →
      ((var_bind n t = .error (.InfiniteType n t)) ↔ contains t n = true) ∧
      (contains t n = false → var_bind n t = .ok [(n, t)])) := by
  constructor
  · simp [var_bind]
  · intro hne
    cases t with
    | TNamed s => simp [var_bind, contains]
    | TVar m =>
      have hm : ¬ n = m := fun h => hne (by rw [h])
      simp [var_bind, contains, hm]
    | TFun f toT =>
      by_cases hc : contains (.TFun f toT) n = true
      · simp [var_bind, hc]
      · simp [var_bind, hc]

/-- C3 witness: var_bind at concrete inputs, obtained from the theorem. -/
theorem var_bind_occurs_check_sound_inst :
    var_bind "a" (.TVar "a") = .ok [] ∧
    var_bind "a" (.TFun (.TVar "a") (.TNamed "Int"))
        = .error (.InfiniteType "a" (.TFun (.TVar "a") (.TNamed "Int"))) ∧
    var_bind "a" (.TNamed "Int") = .ok [("a", .TNamed "Int")] := by
  have h1 := var_bind_occurs_check_sound "a" (Ty.TFun (Ty.TVar "a") (Ty.TNamed "Int"))
  have h2 := var_bind_occurs_check_sound "a" (Ty.TNamed "Int")
  refine ⟨h1.1, ?_, ?_⟩
  · exact (h1.2 (by decide)).1.mpr (by decide)
  · exact (h2.2 (by decide)).2 (by decide)

/-- C4: in the call of f to the identity lambda, the counter advance made while
inferring the argument happens through the dropped temporary produced by
apply_subs_to_ctx, so the fresh result variable of the call reuses the name T0
already minted for the lambda parameter: the run succeeds and its minted-name
trace is T0, T0, which is not pairwise distinct. -/
theorem infer_call_mints_colliding_names :
    infer ⟨0, [("f", Ty.TFun (Ty.TFun (Ty.TVar "a") (Ty.TVar "a")) (Ty.TNamed "Int"))]⟩
        (.ECall (.EVar "f") (.EFunc "x" (.EVar "x")))
      = .ok (Ty.TNamed "Int", [], 1, ["T0", "T0"]) ∧
    ¬ (["T0", "T0"] : List String).Nodup :=
  ⟨rfl, by decide⟩

/-- C5: infer reaches the wildcard arm for EIf, so the If inference the claim
describes never runs; the example from the claim, If over Var true with the
boolean-seeded environment, hits the unimplemented panic instead of producing
Named Int. -/
theorem infer_if_unimplemented :
    infer ⟨0, intial⟩ (.EIf (.EVar "true") (.EInt 1) (.EInt 2))
      = .error .Unimplemented :=
  rfl

/-- C6: the unify copy in src/main.rs falls through to the empty substitution
for two distinct named types, succeeding where the claim requires a
TypeMismatch failure; the copy in src/inference_test.rs does fail there. -/
theorem main_unify_named_mismatch_succeeds :
    mainUnify (Ty.TNamed "Int") (Ty.TNamed "Bool") = .ok [] ∧
    unify (Ty.TNamed "Int") (Ty.TNamed "Bool")
        = .error (.TypeNamesMismatch "Int" "Bool") :=
  ⟨rfl, rfl⟩

/-- C7: infer on Func(param, body) mints one fresh variable named from the
counter, infers body under the environment extended with the parameter bound
to it (the given context value is untouched), and returns
Fun(s.apply(tv), bodyType) together with the body substitution s; the identity
function under the empty environment infers to Fun(Var T0, Var T0). -/
theorem infer_func_shape (ctx : Context) (param : String) (body : Expression) :
    infer ctx (.EFunc param body)
      = (infer (add_to_context ⟨ctx.next + 1, ctx.env⟩ param
            (.TVar (mkTypeVarName ctx.next))) body).map
          (fun r => (Ty.TFun (appl_subs_to_type r.2.1 (.TVar (mkTypeVarName ctx.next))) r.1,
                     r.2.1, ctx.next + 1, mkTypeVarName ctx.next :: r.2.2.2)) ∧
    infer ⟨0, []⟩ (.EFunc "a" (.EVar "a"))
      = .ok (Ty.TFun (.TVar "T0") (.TVar "T0"), [], 1, ["T0"]) := by
  constructor
  · cases h : infer (add_to_context ⟨ctx.next + 1, ctx.env⟩ param
        (.TVar (mkTypeVarName ctx.next))) body with
    | ok r =>
      obtain ⟨bodyType, subst, k, minted⟩ := r
      simp [infer, h, Except.map]
    | error e2 => simp [infer, h, Except.map]
  · rfl

/-- C8: infer on Var(name) fails with UnboundVariable name exactly when the
name is absent from the environment, and otherwise returns the bound type
verbatim together with the empty substitution. -/
theorem infer_var_lookup (ctx : Context) (name : String) :
    (infer ctx (.EVar name) = .error (.UnboundVariable name)
        ↔ lookupStr ctx.env name = none) ∧
    (∀ t, lookupStr ctx.env name = some t →
      infer ctx (.EVar name) = .ok (t, [], ctx.next, [])) := by
  cases h : lookupStr ctx.env name with
  | none => simp [infer, h]
  | some t => simp [infer, h]

/-- C8 witness: the unbound case on the empty environment and the bound case
returning the stored type verbatim, obtained from the theorem. -/
theorem infer_var_lookup_inst :
    infer ⟨0, []⟩ (.EVar "x") = .error (.UnboundVariable "x") ∧
    infer ⟨0, [("x", Ty.TNamed "Int")]⟩ (.EVar "x")
        = .ok (Ty.TNamed "Int", [], 0, []) := by
  constructor
  · exact (infer_var_lookup ⟨0, []⟩ "x").1.mpr rfl
  · exact (infer_var_lookup ⟨0, [("x", Ty.TNamed "Int")]⟩ "x").2 _ rfl

/-- C9: unify succeeds in both argument orders on Fun(Var a, Var a) against
Fun(Var b, Int), but the two returned substitutions each lack the domain
binding that compose_substitution dropped, so applying each to its first
argument leaves the two sides structurally different. -/
theorem unify_not_symmetric :
    unify (Ty.TFun (Ty.TVar "a") (Ty.TVar "a")) (Ty.TFun (Ty.TVar "b") (Ty.TNamed "Int"))
        = .ok [("b", Ty.TNamed "Int")] ∧
    unify (Ty.TFun (Ty.TVar "b") (Ty.TNamed "Int")) (Ty.TFun (Ty.TVar "a") (Ty.TVar "a"))
        = .ok [("a", Ty.TNamed "Int")] ∧
    appl_subs_to_type [("b", Ty.TNamed "Int")] (Ty.TFun (Ty.TVar "a") (Ty.TVar "a"))
        = Ty.TFun (Ty.TVar "a") (Ty.TVar "a") ∧
    appl_subs_to_type [("a", Ty.TNamed "Int")] (Ty.TFun (Ty.TVar "b") (Ty.TNamed "Int"))
        = Ty.TFun (Ty.TVar "b") (Ty.TNamed "Int") ∧
    Ty.TFun (Ty.TVar "a") (Ty.TVar "a") ≠ Ty.TFun (Ty.TVar "b") (Ty.TNamed "Int") :=
  ⟨rfl, rfl, rfl, rfl, by decide⟩

/-- C10: applying a substitution to a type variable returns the stored entry
exactly as stored, in a single pass with no re-application; in particular the
chained substitution maps Var a to Var b, not on to Int. -/
theorem appl_subs_single_pass :
    (∀ (s : Substitution) (n : String),
      appl_subs_to_type s (.TVar n) = (lookupStr s n).getD (.TVar n)) ∧
    appl_subs_to_type [("a", Ty.TVar "b"), ("b", Ty.TNamed "Int")] (Ty.TVar "a")
        = Ty.TVar "b" :=
  ⟨fun _ _ => rfl, rfl⟩
